import Mathlib

/-!
Shallow embedding of the Visual Document Comparison Pipeline from
`backend/app/services/document_comparison.py`, together with theorems
settling the frozen claims about it.

Modelling conventions:
- Filesystem paths are represented structurally as directory, stem and
  extension (the source only ever manipulates paths through `Path.stem`,
  `Path.suffix`, `Path.parent`, `Path.name` and `with_suffix`, and every
  constructed filename has a single final dot, so the structural view is
  exact).
- The external collaborators (LibreOffice rendering, pdf2image
  rasterization, the VLM OCR call, the MinIO upload) are inputs of the
  model, packaged in an `Env` record: each is an arbitrary function
  returning either a value or an exception message, exactly the shape the
  Python code observes.  The pure algorithmic parts (classification,
  text differencing, bounding-box drawing, path bookkeeping, page-loop
  control flow, page-count validation) are translated line by line.
- `asyncio.gather(..., return_exceptions=True)` is modelled operationally:
  tasks complete in an arbitrary `schedule` order and each completion
  writes its outcome into the slot of its own index; the join point then
  reads the slots out in index order.
- Python exceptions become `Except`; the distinct failure shapes of the
  orchestrator become the `CmpErr` inductive.
-/

deriving instance DecidableEq for Except

/-- Structural file path: parent directory, stem, and extension
(the extension includes its leading dot and contains no other dot). -/
structure FPath where
  dir : String
  stem : String
  ext : String
deriving DecidableEq, Repr, Inhabited

/-- Python `Path.name`: filename including extension. -/
def FPath.name (p : FPath) : String := p.stem ++ p.ext

/-- Bounding box in image-pixel coordinates, `(x, y, width, height)`;
the source converts VLM output with `int(...)`, so components are integers. -/
abbrev BBox := Int × Int × Int × Int

/-- One page's Page Pair Result: the two annotated output image names,
`{"EXCEL": ..., "PDF": ...}` in the source. -/
structure PagePairResult where
  EXCEL : String
  PDF : String
deriving DecidableEq, Repr

/-- Failure taxonomy of the comparison orchestrator, mirroring the distinct
exceptions the source can raise. -/
inductive CmpErr where
  /-- FileNotFoundError for a missing input file. -/
  | fileNotFound (p : FPath)
  /-- CalledProcessError or TimeoutExpired from the soffice subprocess. -/
  | renderFailure
  /-- Exception escaping pdf2image rasterization. -/
  | rasterFailure (msg : String)
  /-- ValueError raised by the page-count check; carries both counts. -/
  | pageMismatch (excelPages pdfPages : Nat)
  /-- A per-page exception propagating out of the sequential page loop. -/
  | pageError (msg : String)
  /-- Exception "Failed to process any pages" of the optimized variant. -/
  | allPagesFailed
deriving DecidableEq, Repr

/-- Message of the page-count ValueError, as formatted by the source. -/
def page_mismatch_message (m n : Nat) : String :=
  "INVALID! The two docs have different numbers of pages! Excel: " ++
    toString m ++ ", PDF: " ++ toString n

/-- Uppercase a string, mirroring Python `str.upper()` on the characters the
pipeline handles (ASCII letters; Char.toUpper fixes everything else). -/
def upperStr (s : String) : String := ⟨s.toList.map Char.toUpper⟩

/-- Substring containment, mirroring the Python `needle in haystack` test. -/
def containsSub (needle hay : String) : Bool :=
  decide (needle.toList <:+: hay.toList)

/-- Whitespace class of the regex `\s` on the ASCII range, used by the
normalization step of the text differencer. -/
def isPySpace (c : Char) : Bool :=
  c = ' ' || c = '\t' || c = '\n' || c = '\r' || c = '\x0b' || c = '\x0c'

/-- Normalization of the text differencer, from the source:
`re.sub(r"\s+", "", text).upper()` — drop all whitespace, then uppercase. -/
def normalize_text (s : String) : String :=
  upperStr ⟨s.toList.filter (fun c => !isPySpace c)⟩

/-- Classified Document Set: one optional filename per document role, plus a
list for the export-declaration role, mirroring the result dict keys of
`classify_input_documents`. -/
structure ClassifiedSet where
  settle_file_name : Option String := none
  einvoice_file_name : Option String := none
  cinvoice_plist_file_name : Option String := none
  cinvoice_file_name : Option String := none
  packing_list_file_name : Option String := none
  PO_SO_file_name : Option String := none
  export_CD_file_name : List String := []
deriving DecidableEq, Repr

/-- Extension test shared by most classification rules:
`file_ext in [".XLSX", ".XLS"]`. -/
def spreadsheet_ext (ext : String) : Bool := ext == ".XLSX" || ext == ".XLS"

/-- One iteration of the classification scan: the if/elif chain of
`classify_input_documents` applied to a single regular file, updating the
accumulated result dict. -/
def classify_one (st : ClassifiedSet) (f : FPath) : ClassifiedSet :=
  let filename := f.name
  let filename_upper := upperStr filename
  let file_ext := upperStr f.ext
  if containsSub "SETTLE" filename_upper && spreadsheet_ext file_ext then
    { st with settle_file_name := some filename }
  else if (containsSub "VAT" filename_upper || containsSub "E-INV" filename_upper)
      && file_ext == ".XML" then
    { st with einvoice_file_name := some filename }
  else if containsSub "CI&PKL" filename_upper && spreadsheet_ext file_ext then
    { st with cinvoice_plist_file_name := some filename }
  else if containsSub "CI" filename_upper && spreadsheet_ext file_ext then
    -- source guard: not already classified as CI&PKL under this very name
    if st.cinvoice_plist_file_name == none
        || !(st.cinvoice_plist_file_name == some filename) then
      { st with cinvoice_file_name := some filename }
    else st
  else if containsSub "PKL" filename_upper && spreadsheet_ext file_ext then
    if st.cinvoice_plist_file_name == none
        || !(st.cinvoice_plist_file_name == some filename) then
      { st with packing_list_file_name := some filename }
    else st
  else if containsSub "TKX" filename_upper && spreadsheet_ext file_ext then
    { st with export_CD_file_name := st.export_CD_file_name ++ [filename] }
  else if (containsSub "PO" filename_upper || containsSub "SO" filename_upper
      || containsSub "PC" filename_upper || containsSub "SC" filename_upper)
      && spreadsheet_ext file_ext then
    { st with PO_SO_file_name := some filename }
  else st

/-- Classification of a task workspace: fold the per-file chain over the
directory listing (the regular files, in iteration order). -/
def classify_input_documents (files : List FPath) : ClassifiedSet :=
  files.foldl classify_one {}

/-- Index collection loop of the text differencer, from the source:
`for i, t in enumerate(norm_texts1): if t not in norm_texts2: append i`,
started at index `k`. -/
def diff_indices_from (k : Nat) (other : List String) : List String → List Nat
  | [] => []
  | t :: rest =>
    if other.contains t then diff_indices_from (k + 1) other rest
    else k :: diff_indices_from (k + 1) other rest

/-- Text Differencer `find_text_differences`: normalize both token lists and
collect, per side, the indices whose normalized form occurs nowhere in the
other side's normalized list. -/
def find_text_differences (texts1 texts2 : List String) :
    List Nat × List Nat :=
  let norm_texts1 := texts1.map normalize_text
  let norm_texts2 := texts2.map normalize_text
  (diff_indices_from 0 norm_texts2 norm_texts1,
   diff_indices_from 0 norm_texts1 norm_texts2)

/-- In-memory page image: opaque pixel content plus the rectangles that have
been drawn onto it. -/
structure ImageModel where
  pixels : String
  rects : List BBox
deriving DecidableEq, Repr, Inhabited

/-- Tiny filesystem view used by the annotator model. -/
abbrev FileStore := FPath → Option ImageModel

/-- Rectangles actually drawn by the annotator loop, from the source:
`for idx in indices: if idx < len(bboxes): cv2.rectangle(bboxes[idx])`. -/
def drawnRects (bboxes : List BBox) (indices : List Nat) : List BBox :=
  indices.filterMap (fun idx => bboxes[idx]?)

/-- Annotator `draw_bounding_boxes`: load the image, draw a rectangle for
every in-range highlighted index, and write the result to a new path
`{stem}_with_bboxes.jpg` next to the input, returning the new store and the
output path.  The source image file itself is never written. -/
def draw_bounding_boxes (fs : FileStore) (image_path : FPath)
    (bboxes : List BBox) (indices : List Nat) : FileStore × FPath :=
  let image := (fs image_path).getD default
  let annotated : ImageModel :=
    { pixels := image.pixels, rects := image.rects ++ drawnRects bboxes indices }
  let output_path : FPath := ⟨image_path.dir, image_path.stem ++ "_with_bboxes", ".jpg"⟩
  (fun p => if p = output_path then some annotated else fs p, output_path)

/-- Output path of the annotator for a given input image, the only part of
`draw_bounding_boxes` the orchestrator result depends on. -/
def draw_output_path (image_path : FPath) : FPath :=
  ⟨image_path.dir, image_path.stem ++ "_with_bboxes", ".jpg"⟩

/-- Page Rasterizer `export_pdf_to_images`: check the input exists, rasterize
it to a list of page images (external collaborator `rasterize`), and save
page `i` (1-indexed) as `{stem}_page_{i}.jpg` in the same directory,
returning the ordered path list and the page count. -/
def export_pdf_to_images (rasterize : FPath → Except String (List String))
    (pdfExists : Bool) (pdf_path : FPath) : Except CmpErr (List FPath × Nat) :=
  if !pdfExists then .error (.fileNotFound pdf_path)
  else
    match rasterize pdf_path with
    | .error msg => .error (.rasterFailure msg)
    | .ok images =>
      let num_pages := images.length
      let image_paths := (List.range num_pages).map
        (fun i => (⟨pdf_path.dir, pdf_path.stem ++ "_page_" ++ toString (i + 1), ".jpg"⟩ : FPath))
      .ok (image_paths, num_pages)

/-- Spreadsheet Renderer `convert_excel_to_pdf`: check the input exists, run
the bounded soffice subprocess, and on success return the same-stem path with
a `.pdf` extension (Python `with_suffix(".pdf")`). -/
def convert_excel_to_pdf (excelExists : Bool) (renderOk : Bool)
    (excel_path : FPath) : Except CmpErr FPath :=
  if !excelExists then .error (.fileNotFound excel_path)
  else if renderOk then .ok ⟨excel_path.dir, excel_path.stem, ".pdf"⟩
  else .error .renderFailure

/-- Behaviour of the external collaborators plus the two input paths of one
comparison: everything the orchestrator observes about the outside world.
`rasterize`, `ocr` and `upload` return either a value or the message of the
exception they raise. -/
structure Env where
  excel_path : FPath
  pdf_path : FPath
  fileExists : FPath → Bool
  renderOk : Bool
  rasterize : FPath → Except String (List String)
  ocr : FPath → Except String (List String × List BBox)
  upload : FPath → Except String String

/-- Collision guard of the orchestrator: if the two input stems coincide,
the spreadsheet is renamed in place to `{stem}_RENAMED{ext}`. -/
def renamed_excel (env : Env) : FPath :=
  if env.excel_path.stem = env.pdf_path.stem then
    ⟨env.excel_path.dir, env.excel_path.stem ++ "_RENAMED", env.excel_path.ext⟩
  else env.excel_path

/-- Path of the rendered spreadsheet PDF produced by a successful conversion
of the (possibly renamed) spreadsheet. -/
def rendered_pdf_path (env : Env) : FPath :=
  ⟨(renamed_excel env).dir, (renamed_excel env).stem, ".pdf"⟩

/-- File existence after the collision-guard rename: the rename moves the
spreadsheet from its original path to the renamed path; every other path is
untouched. -/
def existsAfterRename (env : Env) (p : FPath) : Bool :=
  if env.excel_path.stem = env.pdf_path.stem then
    if p = renamed_excel env then env.fileExists env.excel_path
    else if p = env.excel_path then false
    else env.fileExists p
  else env.fileExists p

/-- File existence after a successful render: the rendering engine has
written the rendered PDF; every other path is as after the rename. -/
def existsAfterRender (env : Env) (rendered p : FPath) : Bool :=
  if p = rendered then true else existsAfterRename env p

/-- Steps shared verbatim by the two orchestrator variants before any
per-page work: input existence checks, collision-guard rename, spreadsheet
rendering, rasterization of both documents, and the page-count check.
Returns the two ordered page-image path lists and the validated shared page
count, or the pair-level failure that aborted the pipeline. -/
def pipeline_setup (env : Env) :
    Except CmpErr (List FPath × List FPath × Nat) :=
  if !env.fileExists env.excel_path then .error (.fileNotFound env.excel_path)
  else if !env.fileExists env.pdf_path then .error (.fileNotFound env.pdf_path)
  else
    let excel_path := renamed_excel env
    match convert_excel_to_pdf (existsAfterRename env excel_path) env.renderOk excel_path with
    | .error e => .error e
    | .ok excel_pdf_path =>
      match export_pdf_to_images env.rasterize
          (existsAfterRender env excel_pdf_path excel_pdf_path) excel_pdf_path with
      | .error e => .error e
      | .ok (excel_image_paths, excel_num_pages) =>
        match export_pdf_to_images env.rasterize
            (existsAfterRender env excel_pdf_path env.pdf_path) env.pdf_path with
        | .error e => .error e
        | .ok (pdf_image_paths, pdf_num_pages) =>
          if excel_num_pages ≠ pdf_num_pages then
            .error (.pageMismatch excel_num_pages pdf_num_pages)
          else .ok (excel_image_paths, pdf_image_paths, excel_num_pages)

/-- Per-page processing, identical in both variants (the sequential loop
body, and `_process_page_pair` of the optimized variant): OCR both page
images, diff the token lists, draw the difference boxes producing the two
annotated image paths, upload both, and return the Page Pair Result.  Any
stage exception makes the whole page fail with that message. -/
def process_page_pair (env : Env) (excel_img_path pdf_img_path : FPath) :
    Except String PagePairResult :=
  match env.ocr excel_img_path with
  | .error msg => .error msg
  | .ok (excel_texts, excel_bboxes) =>
    match env.ocr pdf_img_path with
    | .error msg => .error msg
    | .ok (pdf_texts, pdf_bboxes) =>
      let diffs := find_text_differences excel_texts pdf_texts
      let _ := drawnRects excel_bboxes diffs.1
      let _ := drawnRects pdf_bboxes diffs.2
      let excel_bbox_path := draw_output_path excel_img_path
      let pdf_bbox_path := draw_output_path pdf_img_path
      match env.upload excel_bbox_path with
      | .error msg => .error msg
      | .ok _ =>
        match env.upload pdf_bbox_path with
        | .error msg => .error msg
        | .ok _ => .ok ⟨excel_bbox_path.name, pdf_bbox_path.name⟩

/-- Processing of page number `i`: page pair at index `i` of the two ordered
image-path lists (the source indexes both lists with the loop variable). -/
def page_step (env : Env) (excel_image_paths pdf_image_paths : List FPath)
    (i : Nat) : Except String PagePairResult :=
  process_page_pair env (excel_image_paths.getD i default)
    (pdf_image_paths.getD i default)

/-- Sequential page loop of `compare_document_pair`: pages are processed in
order and the first per-page exception propagates out of the loop,
discarding all earlier results. -/
def run_seq (f : Nat → Except String PagePairResult) :
    List Nat → Except CmpErr (List PagePairResult)
  | [] => .ok []
  | i :: rest =>
    match f i with
    | .error msg => .error (.pageError msg)
    | .ok r =>
      match run_seq f rest with
      | .error e => .error e
      | .ok rs => .ok (r :: rs)

/-- Sequential orchestrator `compare_document_pair`. -/
def compare_document_pair (env : Env) : Except CmpErr (List PagePairResult) :=
  match pipeline_setup env with
  | .error e => .error e
  | .ok (excel_image_paths, pdf_image_paths, num_pages) =>
    run_seq (page_step env excel_image_paths pdf_image_paths)
      (List.range num_pages)

/-- Operational model of `asyncio.gather(*tasks, return_exceptions=True)`:
tasks complete in `schedule` order, and each completion stores the outcome
of task `i` into slot `i`; the slots are then read out in index order.  When
every task index occurs in the schedule, every slot is filled. -/
def gather_by_index (tasks : List (Except String PagePairResult))
    (schedule : List Nat) : List (Option (Except String PagePairResult)) :=
  schedule.foldl (fun slots i => slots.set i tasks[i]?)
    (List.replicate tasks.length none)

/-- Collection loop of the optimized variant: exceptions are logged and
skipped, successful page results are appended in slot order. -/
def collect_results :
    List (Option (Except String PagePairResult)) → List PagePairResult
  | [] => []
  | some (.ok r) :: rest => r :: collect_results rest
  | _ :: rest => collect_results rest

/-- Successful results of a task list, in task order; what the collection
loop produces once the gather join has filled every slot. -/
def collect_ok : List (Except String PagePairResult) → List PagePairResult
  | [] => []
  | .ok r :: rest => r :: collect_ok rest
  | .error _ :: rest => collect_ok rest

/-- Optimized orchestrator `compare_document_pair_optimized`, parameterized
by the completion order `schedule` of the concurrently running per-page
tasks.  After the shared setup it launches one task per page, harvests them
at a single gather join, collects the successful results in page order, and
raises All-Pages-Failed when no page produced a result. -/
def compare_document_pair_optimized (env : Env) (schedule : List Nat) :
    Except CmpErr (List PagePairResult) :=
  match pipeline_setup env with
  | .error e => .error e
  | .ok (excel_image_paths, pdf_image_paths, num_pages) =>
    let page_tasks := (List.range num_pages).map
      (page_step env excel_image_paths pdf_image_paths)
    let page_results := gather_by_index page_tasks schedule
    let result_images := collect_results page_results
    if result_images.isEmpty then .error .allPagesFailed
    else .ok result_images

/-! Concrete environments used by witnesses and counterexamples. -/

/-- Environment in which both documents rasterize to two pages and the OCR
component fails on the first excel page image only; every other collaborator
succeeds. -/
def envMix : Env where
  excel_path := ⟨"T", "CI", ".xlsx"⟩
  pdf_path := ⟨"T", "SCAN", ".pdf"⟩
  fileExists := fun _ => true
  renderOk := true
  rasterize := fun _ => .ok ["pg1", "pg2"]
  ocr := fun p =>
    if p = ⟨"T", "CI_page_1", ".jpg"⟩ then .error "OCR failed" else .ok ([], [])
  upload := fun _ => .ok "obj"

/-- Same documents as `envMix`, with every page succeeding. -/
def envOk : Env := { envMix with ocr := fun _ => .ok ([], []) }

/-- Environment in which both documents rasterize to zero pages. -/
def envZero : Env := { envMix with rasterize := fun _ => .ok [] }

/-- Environment in which the rendered spreadsheet rasterizes to one page but
the original PDF rasterizes to two. -/
def envMismatch : Env :=
  { envMix with
    rasterize := fun p =>
      if p = ⟨"T", "CI", ".pdf"⟩ then .ok ["pg1"] else .ok ["pg1", "pg2"] }

/-- Excel-side page image paths produced by the setup of `envMix`. -/
def epsMix : List FPath := [⟨"T", "CI_page_1", ".jpg"⟩, ⟨"T", "CI_page_2", ".jpg"⟩]

/-- PDF-side page image paths produced by the setup of `envMix`. -/
def ppsMix : List FPath := [⟨"T", "SCAN_page_1", ".jpg"⟩, ⟨"T", "SCAN_page_2", ".jpg"⟩]

/-- Result list of a fully successful two-page comparison of `envOk`. -/
def rsOk : List PagePairResult :=
  [⟨"CI_page_1_with_bboxes.jpg", "SCAN_page_1_with_bboxes.jpg"⟩,
   ⟨"CI_page_2_with_bboxes.jpg", "SCAN_page_2_with_bboxes.jpg"⟩]

/-! Helper lemmas. -/

/-- Success test for a per-page outcome. -/
def except_succeeded : Except String PagePairResult → Bool
  | .ok _ => true
  | .error _ => false

/-- Inversion of the sequential page loop: a successful run means every page
succeeded, with the results aligned to the pages in order. -/
theorem run_seq_ok_map (f : Nat → Except String PagePairResult) :
    ∀ (l : List Nat) (rs : List PagePairResult),
    run_seq f l = .ok rs → l.map f = rs.map Except.ok := by
  intro l
  induction l with
  | nil =>
    intro rs h
    simp only [run_seq] at h
    injection h with h
    subst h
    rfl
  | cons i rest ih =>
    intro rs h
    simp only [run_seq] at h
    cases hfi : f i with
    | error msg => rw [hfi] at h; cases h
    | ok r =>
      rw [hfi] at h
      cases hrest : run_seq f rest with
      | error e => rw [hrest] at h; cases h
      | ok rs2 =>
        rw [hrest] at h
        injection h with h
        subst h
        simp only [List.map_cons, hfi, ih rs2 hrest]

/-- Slot contents of the gather join under any completion schedule: a slot
holds its own task's outcome once its index has completed, and keeps its
initial value otherwise. -/
theorem gather_foldl_getElem? (tasks : List (Except String PagePairResult)) :
    ∀ (schedule : List Nat)
      (init : List (Option (Except String PagePairResult))) (j : Nat),
    (schedule.foldl (fun slots i => slots.set i tasks[i]?) init)[j]? =
      if j ∈ schedule ∧ j < init.length then some tasks[j]? else init[j]? := by
  intro schedule
  induction schedule with
  | nil => intro init j; simp
  | cons i sch ih =>
    intro init j
    rw [List.foldl_cons, ih, List.length_set]
    by_cases hjs : j ∈ sch ∧ j < init.length
    · rw [if_pos hjs, if_pos ⟨List.mem_cons_of_mem i hjs.1, hjs.2⟩]
    · rw [if_neg hjs, List.getElem?_set]
      by_cases hij : i = j
      · subst hij
        by_cases hlen : i < init.length
        · rw [if_pos rfl, if_pos hlen, if_pos ⟨List.mem_cons_self i sch, hlen⟩]
        · rw [if_pos rfl, if_neg hlen, if_neg (fun hc => hlen hc.2),
            Eq.symm (List.getElem?_eq_none_iff.mpr (Nat.le_of_not_lt hlen))]
      · rw [if_neg hij, if_neg]
        intro hc
        rcases List.mem_cons.mp hc.1 with hji | hji
        · exact hij hji.symm
        · exact hjs ⟨hji, hc.2⟩

/-- When the completion schedule covers every page index exactly as the
gather join guarantees, every slot is filled with its own task's outcome: the
harvest equals the task list, in task order, independent of completion
order. -/
theorem gather_by_index_perm (tasks : List (Except String PagePairResult))
    (schedule : List Nat) (hperm : schedule.Perm (List.range tasks.length)) :
    gather_by_index tasks schedule = tasks.map some := by
  apply List.ext_getElem?
  intro j
  unfold gather_by_index
  rw [gather_foldl_getElem?, List.length_replicate]
  by_cases hj : j < tasks.length
  · have hmem : j ∈ schedule := hperm.mem_iff.mpr (List.mem_range.mpr hj)
    rw [if_pos ⟨hmem, hj⟩, List.getElem?_map, List.getElem?_eq_getElem hj]
    rfl
  · rw [if_neg (fun hc => hj hc.2), List.getElem?_map,
      List.getElem?_eq_none_iff.mpr (Nat.le_of_not_lt hj),
      List.getElem?_replicate, if_neg hj]
    rfl

/-- Reading the filled slots in index order is the in-order success
collection. -/
theorem collect_results_map_some :
    ∀ (l : List (Except String PagePairResult)),
    collect_results (l.map some) = collect_ok l := by
  intro l
  induction l with
  | nil => rfl
  | cons x rest ih => cases x <;> simp [collect_results, collect_ok, ih]

/-- Collecting an all-success outcome list returns exactly the results. -/
theorem collect_ok_map_ok : ∀ (rs : List PagePairResult),
    collect_ok (rs.map Except.ok) = rs := by
  intro rs
  induction rs with
  | nil => rfl
  | cons r rest ih => simp [collect_ok, ih]

/-- The success collection is empty exactly when every outcome failed. -/
theorem collect_ok_eq_nil_iff : ∀ (l : List (Except String PagePairResult)),
    collect_ok l = [] ↔ ∀ x ∈ l, except_succeeded x = false := by
  intro l
  induction l with
  | nil => simp [collect_ok]
  | cons x rest ih =>
    cases x with
    | error m => simp [collect_ok, ih, except_succeeded]
    | ok r => simp [collect_ok, except_succeeded]

/-- Shape of the optimized orchestrator once the gather join has filled every
slot: the completion schedule disappears and the harvest is the per-page
outcome list in page order. -/
theorem optimized_after_join (env : Env) (eps pps : List FPath) (n : Nat)
    (schedule : List Nat)
    (hps : pipeline_setup env = .ok (eps, pps, n))
    (hperm : schedule.Perm (List.range n)) :
    compare_document_pair_optimized env schedule =
      (if (collect_ok ((List.range n).map (page_step env eps pps))).isEmpty
       then .error .allPagesFailed
       else .ok (collect_ok ((List.range n).map (page_step env eps pps)))) := by
  unfold compare_document_pair_optimized
  rw [hps]
  dsimp only
  have hlen : ((List.range n).map (page_step env eps pps)).length = n := by
    rw [List.length_map, List.length_range]
  rw [gather_by_index_perm _ _ (by rw [hlen]; exact hperm),
    collect_results_map_some]

/-- The original PDF path is never the renamed spreadsheet path: the rename
appends a fixed marker to the shared stem. -/
theorem renamed_ne_pdf (env : Env)
    (hst : env.excel_path.stem = env.pdf_path.stem) :
    env.pdf_path ≠ renamed_excel env := by
  unfold renamed_excel
  rw [if_pos hst]
  intro h
  have hstem := congrArg FPath.stem h
  simp only at hstem
  rw [hst] at hstem
  have hlen := congrArg String.length hstem
  rw [String.length_append] at hlen
  have h8 : "_RENAMED".length = 8 := by decide
  omega

/-- The collision-guard rename leaves the spreadsheet existing at its
(possibly renamed) path. -/
theorem existsAfterRename_renamed (env : Env)
    (hex : env.fileExists env.excel_path = true) :
    existsAfterRename env (renamed_excel env) = true := by
  unfold existsAfterRename
  by_cases hst : env.excel_path.stem = env.pdf_path.stem
  · rw [if_pos hst, if_pos rfl]
    exact hex
  · rw [if_neg hst]
    unfold renamed_excel
    rw [if_neg hst]
    exact hex

/-- The collision-guard rename leaves the original PDF untouched whenever the
two input paths are distinct. -/
theorem existsAfterRename_pdf (env : Env)
    (hneq : env.excel_path ≠ env.pdf_path)
    (hpdf : env.fileExists env.pdf_path = true) :
    existsAfterRename env env.pdf_path = true := by
  unfold existsAfterRename
  by_cases hst : env.excel_path.stem = env.pdf_path.stem
  · rw [if_pos hst, if_neg (renamed_ne_pdf env hst), if_neg]
    · exact hpdf
    · intro h
      exact hneq (by rw [h])
  · rw [if_neg hst]
    exact hpdf

/-- The shared setup ends in the Page Mismatch ValueError whenever the two
rasterizations disagree on page count. -/
theorem pipeline_setup_mismatch (env : Env) (m n : Nat)
    (imgsE imgsP : List String)
    (hneq : env.excel_path ≠ env.pdf_path)
    (hex : env.fileExists env.excel_path = true)
    (hpdf : env.fileExists env.pdf_path = true)
    (hrender : env.renderOk = true)
    (hrE : env.rasterize (rendered_pdf_path env) = .ok imgsE)
    (hrP : env.rasterize env.pdf_path = .ok imgsP)
    (hm : imgsE.length = m) (hn : imgsP.length = n) (hmn : m ≠ n) :
    pipeline_setup env = .error (.pageMismatch m n) := by
  have hren : existsAfterRename env (renamed_excel env) = true :=
    existsAfterRename_renamed env hex
  have hrpp : (⟨(renamed_excel env).dir, (renamed_excel env).stem, ".pdf"⟩ : FPath) =
      rendered_pdf_path env := rfl
  have hself : existsAfterRender env (rendered_pdf_path env) (rendered_pdf_path env) = true := by
    unfold existsAfterRender
    rw [if_pos rfl]
  have hpe : existsAfterRender env (rendered_pdf_path env) env.pdf_path = true := by
    unfold existsAfterRender
    by_cases hc : env.pdf_path = rendered_pdf_path env
    · rw [if_pos hc]
    · rw [if_neg hc]
      exact existsAfterRename_pdf env hneq hpdf
  unfold pipeline_setup convert_excel_to_pdf export_pdf_to_images
  simp only [hex, hpdf, hrender, hrpp, hren, hself, hpe, hrE, hrP, hm, hn,
    Bool.not_true, Bool.false_eq_true, if_false, if_true]
  rw [if_pos hmn]

/-- C1: whenever the Excel-derived rendering and the original PDF rasterize
to page counts m and n with m different from n, both orchestrator variants
abort with the Page Mismatch ValueError carrying exactly the two counts and
produce zero Page Pair Results; the conclusion holds for every OCR behaviour
and every upload behaviour, so no per-page extraction, diffing, annotation or
upload can influence either variant or be observed by it — per-page work
never runs. -/
theorem compare_page_mismatch_aborts_both (env : Env) (schedule : List Nat)
    (m n : Nat) (imgsE imgsP : List String)
    (hneq : env.excel_path ≠ env.pdf_path)
    (hex : env.fileExists env.excel_path = true)
    (hpdf : env.fileExists env.pdf_path = true)
    (hrender : env.renderOk = true)
    (hrE : env.rasterize (rendered_pdf_path env) = .ok imgsE)
    (hrP : env.rasterize env.pdf_path = .ok imgsP)
    (hm : imgsE.length = m) (hn : imgsP.length = n) (hmn : m ≠ n) :
    ∀ (ocrB : FPath → Except String (List String × List BBox))
      (uploadB : FPath → Except String String),
    compare_document_pair { env with ocr := ocrB, upload := uploadB } =
        .error (.pageMismatch m n)
    ∧ compare_document_pair_optimized { env with ocr := ocrB, upload := uploadB }
        schedule = .error (.pageMismatch m n) := by
  intro ocrB uploadB
  have hsetup : pipeline_setup { env with ocr := ocrB, upload := uploadB } =
      .error (.pageMismatch m n) :=
    pipeline_setup_mismatch _ m n imgsE imgsP hneq hex hpdf hrender hrE hrP hm hn hmn
  constructor
  · unfold compare_document_pair
    rw [hsetup]
  · unfold compare_document_pair_optimized
    rw [hsetup]

/-- Variant of `envMismatch` whose per-page components always fail. -/
def envMismatchFailingPages : Env :=
  { envMismatch with ocr := fun _ => .error "never", upload := fun _ => .error "never" }

/-- Witness for C1: a concrete pair rasterizing to 1 and 2 pages aborts both
variants with the mismatch error carrying (1, 2), even under per-page
components that always fail. -/
theorem compare_page_mismatch_aborts_both_witness :
    compare_document_pair envMismatchFailingPages = .error (.pageMismatch 1 2)
    ∧ compare_document_pair_optimized envMismatchFailingPages [0] =
        .error (.pageMismatch 1 2) :=
  compare_page_mismatch_aborts_both envMismatch [0] 1 2 ["pg1"] ["pg1", "pg2"]
    (by decide) rfl rfl rfl (by decide) (by decide) rfl rfl (by decide)
    (fun _ => .error "never") (fun _ => .error "never")

/-- C2 counterexample: with identical inputs and identical per-stage
component behaviour (OCR fails on the first excel page image only), the
sequential variant aborts with the per-page error while the optimized variant
completes with a partial result list — the two variants are not observably
identical. -/
theorem optimized_not_equivalent_counterexample :
    compare_document_pair envMix = .error (.pageError "OCR failed")
    ∧ compare_document_pair_optimized envMix [0, 1] =
        .ok [⟨"CI_page_2_with_bboxes.jpg", "SCAN_page_2_with_bboxes.jpg"⟩] :=
  ⟨by decide, by decide⟩

/-- C2 amended: whenever the sequential variant succeeds with a nonempty
Page Pair Result list, the optimized variant returns the identical ordered
list under every completion schedule of its page tasks. -/
theorem optimized_matches_sequential_on_success (env : Env)
    (rs : List PagePairResult) (schedule : List Nat)
    (hseq : compare_document_pair env = .ok rs)
    (hne : rs ≠ [])
    (hsch : schedule.Perm (List.range rs.length)) :
    compare_document_pair_optimized env schedule = .ok rs := by
  unfold compare_document_pair at hseq
  cases hps : pipeline_setup env with
  | error e =>
    rw [hps] at hseq
    cases hseq
  | ok triple =>
    obtain ⟨eps, pps, n⟩ := triple
    rw [hps] at hseq
    have hmap := run_seq_ok_map (page_step env eps pps) (List.range n) rs hseq
    have hlen : n = rs.length := by
      have hl := congrArg List.length hmap
      simpa using hl
    rw [optimized_after_join env eps pps n schedule hps (by rw [hlen]; exact hsch)]
    rw [hmap, collect_ok_map_ok]
    have hemp : rs.isEmpty = false := by
      cases rs with
      | nil => exact absurd rfl hne
      | cons r rest => rfl
    rw [hemp]
    rfl

/-- Witness for the amended C2: a fully successful two-page comparison gives
the same result list for the optimized variant under the reversed completion
order as the sequential variant produced. -/
theorem optimized_matches_sequential_on_success_witness :
    compare_document_pair_optimized envOk [1, 0] = .ok rsOk :=
  optimized_matches_sequential_on_success envOk rsOk [1, 0]
    (by decide) (by decide) (by decide)

/-- C3 counterexample: in `envMix` the setup validates two pages, page 0
fails and page 1 succeeds, yet the sequential orchestrator does not complete
with a partial result — the per-page failure propagates out of it. -/
theorem sequential_page_failure_propagates_counterexample :
    pipeline_setup envMix = .ok (epsMix, ppsMix, 2)
    ∧ except_succeeded (page_step envMix epsMix ppsMix 0) = false
    ∧ except_succeeded (page_step envMix epsMix ppsMix 1) = true
    ∧ compare_document_pair envMix = .error (.pageError "OCR failed") :=
  ⟨by decide, by decide, by decide, by decide⟩

/-- C3 amended: in the optimized orchestrator page-level failures are
recoverable — if per-page processing of every page fails the comparison
fails with All-Pages-Failed, and if at least one page succeeds it completes
normally with the successful pages' results collected in page order, the
per-page failures merely logged.  (In the sequential orchestrator the first
per-page failure propagates instead, as the counterexample shows.) -/
theorem optimized_page_failures_recoverable (env : Env)
    (eps pps : List FPath) (n : Nat) (schedule : List Nat)
    (hps : pipeline_setup env = .ok (eps, pps, n))
    (hsch : schedule.Perm (List.range n)) :
    ((∀ i, i < n → except_succeeded (page_step env eps pps i) = false) →
      compare_document_pair_optimized env schedule = .error .allPagesFailed)
    ∧ ((∃ i, i < n ∧ except_succeeded (page_step env eps pps i) = true) →
      compare_document_pair_optimized env schedule =
        .ok (collect_ok ((List.range n).map (page_step env eps pps)))) := by
  rw [optimized_after_join env eps pps n schedule hps hsch]
  constructor
  · intro hall
    have hnil : collect_ok ((List.range n).map (page_step env eps pps)) = [] := by
      rw [collect_ok_eq_nil_iff]
      intro x hx
      obtain ⟨i, hi, hxi⟩ := List.mem_map.mp hx
      rw [← hxi]
      exact hall i (List.mem_range.mp hi)
    rw [hnil]
    rfl
  · intro hsome
    obtain ⟨i, hi, hok⟩ := hsome
    have hnotnil : collect_ok ((List.range n).map (page_step env eps pps)) ≠ [] := by
      intro hnil
      have hall := (collect_ok_eq_nil_iff _).mp hnil
      have hmem : page_step env eps pps i ∈
          (List.range n).map (page_step env eps pps) :=
        List.mem_map.mpr ⟨i, List.mem_range.mpr hi, rfl⟩
      rw [hall _ hmem] at hok
      cases hok
    have hemp : (collect_ok ((List.range n).map (page_step env eps pps))).isEmpty = false := by
      cases hcl : collect_ok ((List.range n).map (page_step env eps pps)) with
      | nil => exact absurd hcl hnotnil
      | cons r rest => rfl
    rw [hemp]
    rfl

/-- Witness for the amended C3: in `envMix` page 1 succeeds, so the optimized
variant completes with the in-page-order collection of the successful
pages. -/
theorem optimized_page_failures_recoverable_witness :
    compare_document_pair_optimized envMix [1, 0] =
      .ok (collect_ok ((List.range 2).map (page_step envMix epsMix ppsMix))) :=
  (optimized_page_failures_recoverable envMix epsMix ppsMix 2 [1, 0]
    (by decide) (by decide)).2 ⟨1, by decide, by decide⟩

/-- C4 counterexample: a comparison of the two-page pair `envMix` completes
without any pair-level failure, yet the optimized variant returns a result
sequence of length 1, not the validated shared page count 2. -/
theorem result_length_partial_counterexample :
    pipeline_setup envMix = .ok (epsMix, ppsMix, 2)
    ∧ compare_document_pair_optimized envMix [0, 1] =
        .ok [⟨"CI_page_2_with_bboxes.jpg", "SCAN_page_2_with_bboxes.jpg"⟩]
    ∧ [(⟨"CI_page_2_with_bboxes.jpg", "SCAN_page_2_with_bboxes.jpg"⟩ : PagePairResult)].length ≠ 2 :=
  ⟨by decide, by decide, by decide⟩

/-- C4 amended: a completed sequential comparison returns exactly one entry
per page, in page order, with length equal to the validated shared page
count; a completed optimized comparison returns the successful pages'
entries in page order, whose number equals the shared count only when every
page succeeded. -/
theorem result_sequence_page_order (env : Env) (eps pps : List FPath)
    (n : Nat) (rs : List PagePairResult) (schedule : List Nat)
    (hps : pipeline_setup env = .ok (eps, pps, n))
    (hsch : schedule.Perm (List.range n)) :
    (compare_document_pair env = .ok rs →
      rs.length = n
      ∧ (List.range n).map (page_step env eps pps) = rs.map Except.ok)
    ∧ (compare_document_pair_optimized env schedule = .ok rs →
      rs = collect_ok ((List.range n).map (page_step env eps pps))) := by
  constructor
  · intro hseq
    unfold compare_document_pair at hseq
    rw [hps] at hseq
    have hmap := run_seq_ok_map (page_step env eps pps) (List.range n) rs hseq
    have hlen : rs.length = n := by
      have hl := congrArg List.length hmap
      simpa using hl.symm
    exact ⟨hlen, hmap⟩
  · intro hopt
    rw [optimized_after_join env eps pps n schedule hps hsch] at hopt
    by_cases hemp : (collect_ok ((List.range n).map (page_step env eps pps))).isEmpty
    · rw [if_pos hemp] at hopt
      cases hopt
    · rw [if_neg hemp] at hopt
      injection hopt with h
      exact h.symm

/-- Witness for the amended C4: the fully successful two-page comparison of
`envOk` returns one entry per page, in page order. -/
theorem result_sequence_page_order_witness :
    rsOk.length = 2
    ∧ (List.range 2).map (page_step envOk epsMix ppsMix) = rsOk.map Except.ok :=
  (result_sequence_page_order envOk epsMix ppsMix 2 rsOk [0, 1]
    (by decide) (by decide)).1 (by decide)

/-- C6: the optimized orchestrator's emitted result sequence is independent
of the completion order of the concurrent page tasks — any completion
schedule gives the same outcome as completing the pages in index order —
and every successful outcome is the page-order collection of the per-page
results, i.e. results are gathered by page index at the single join point,
never by completion order. -/
theorem optimized_order_preserved (env : Env) (eps pps : List FPath)
    (n : Nat) (schedule : List Nat)
    (hps : pipeline_setup env = .ok (eps, pps, n))
    (hsch : schedule.Perm (List.range n)) :
    compare_document_pair_optimized env schedule =
      compare_document_pair_optimized env (List.range n)
    ∧ ∀ rs, compare_document_pair_optimized env schedule = .ok rs →
        rs = collect_ok ((List.range n).map (page_step env eps pps)) := by
  have h1 := optimized_after_join env eps pps n schedule hps hsch
  have h2 := optimized_after_join env eps pps n (List.range n) hps (List.Perm.refl _)
  constructor
  · rw [h1, h2]
  · intro rs hopt
    rw [h1] at hopt
    by_cases hemp : (collect_ok ((List.range n).map (page_step env eps pps))).isEmpty
    · rw [if_pos hemp] at hopt
      cases hopt
    · rw [if_neg hemp] at hopt
      injection hopt with h
      exact h.symm

/-- Witness for C6: on the two-page pair of `envMix`, the reversed completion
order produces the same outcome as the in-order completion. -/
theorem optimized_order_preserved_witness :
    compare_document_pair_optimized envMix [1, 0] =
      compare_document_pair_optimized envMix (List.range 2) :=
  (optimized_order_preserved envMix epsMix ppsMix 2 [1, 0]
    (by decide) (by decide)).1

/-- Membership in the differencer index loop started at offset `k`: exactly
the offsets of the entries with no occurrence in the other normalized
list. -/
theorem mem_diff_indices_from (other : List String) :
    ∀ (l : List String) (k i : Nat),
    i ∈ diff_indices_from k other l ↔
      ∃ j, j < l.length ∧ i = k + j ∧ other.contains (l.getD j "") = false := by
  intro l
  induction l with
  | nil =>
    intro k i
    simp [diff_indices_from]
  | cons t rest ih =>
    intro k i
    unfold diff_indices_from
    by_cases hc : other.contains t = true
    · rw [if_pos hc, ih (k + 1) i]
      constructor
      · rintro ⟨j, hj, hi, hcon⟩
        refine ⟨j + 1, by simp; omega, by omega, ?_⟩
        simpa using hcon
      · rintro ⟨j, hj, hi, hcon⟩
        cases j with
        | zero =>
          rw [List.getD_cons_zero] at hcon
          rw [hc] at hcon
          simp at hcon
        | succ j2 =>
          refine ⟨j2, by simp at hj; omega, by omega, ?_⟩
          simpa using hcon
    · rw [if_neg hc]
      have hcf : other.contains t = false := by
        cases h : other.contains t
        · rfl
        · exact absurd h hc
      rw [List.mem_cons, ih (k + 1) i]
      constructor
      · rintro (hik | ⟨j, hj, hi, hcon⟩)
        · exact ⟨0, by simp, by omega, by simpa using hcf⟩
        · exact ⟨j + 1, by simp; omega, by omega, by simpa using hcon⟩
      · rintro ⟨j, hj, hi, hcon⟩
        cases j with
        | zero =>
          left
          omega
        | succ j2 =>
          right
          exact ⟨j2, by simp at hj; omega, by omega, by simpa using hcon⟩

/-- Characterization of one differencer component over the original token
lists: an index is reported exactly when its token has no normalized match
anywhere on the other side. -/
theorem diff_component_spec (xs ys : List String) (i : Nat) :
    i ∈ diff_indices_from 0 (ys.map normalize_text) (xs.map normalize_text) ↔
      ∃ h : i < xs.length,
        ∀ t ∈ ys, normalize_text (xs.get ⟨i, h⟩) ≠ normalize_text t := by
  rw [mem_diff_indices_from]
  constructor
  · rintro ⟨j, hj, hi, hcon⟩
    have hij : i = j := by omega
    subst hij
    have hx : i < xs.length := by simpa using hj
    refine ⟨hx, ?_⟩
    intro t ht heq
    have hget : (xs.map normalize_text).getD i "" = normalize_text (xs.get ⟨i, hx⟩) := by
      rw [List.getD_eq_getElem?_getD, List.getElem?_map, List.getElem?_eq_getElem hx]
      simp [List.get_eq_getElem]
    rw [hget] at hcon
    have hmem : normalize_text (xs.get ⟨i, hx⟩) ∈ ys.map normalize_text :=
      List.mem_map.mpr ⟨t, ht, heq.symm⟩
    have htrue : (ys.map normalize_text).contains (normalize_text (xs.get ⟨i, hx⟩)) = true := by
      rw [List.contains_iff_exists_mem_beq]
      exact ⟨_, hmem, by simp⟩
    rw [htrue] at hcon
    cases hcon
  · rintro ⟨hx, hall⟩
    refine ⟨i, by simpa using hx, by omega, ?_⟩
    have hget : (xs.map normalize_text).getD i "" = normalize_text (xs.get ⟨i, hx⟩) := by
      rw [List.getD_eq_getElem?_getD, List.getElem?_map, List.getElem?_eq_getElem hx]
      simp [List.get_eq_getElem]
    rw [hget]
    cases hcontains : (ys.map normalize_text).contains (normalize_text (xs.get ⟨i, hx⟩)) with
    | false => rfl
    | true =>
      rw [List.contains_iff_exists_mem_beq] at hcontains
      obtain ⟨a, ha, hbeq⟩ := hcontains
      obtain ⟨t, ht, hta⟩ := List.mem_map.mp ha
      have heq : normalize_text (xs.get ⟨i, hx⟩) = a := by simpa using hbeq
      exact absurd (heq.trans hta.symm) (hall t ht)

/-- The differencer index loop finds nothing when a normalized list is
compared against itself. -/
theorem diff_indices_self (A : List String) :
    diff_indices_from 0 (A.map normalize_text) (A.map normalize_text) = [] := by
  rw [List.eq_nil_iff_forall_not_mem]
  intro i hi
  rw [mem_diff_indices_from] at hi
  obtain ⟨j, hj, _, hcon⟩ := hi
  have hmem : (A.map normalize_text).getD j "" ∈ A.map normalize_text := by
    simp only [List.getD_eq_getElem?_getD, List.getElem?_eq_getElem hj, Option.getD_some]
    exact List.getElem_mem hj
  have htrue : (A.map normalize_text).contains ((A.map normalize_text).getD j "") = true := by
    rw [List.contains_iff_exists_mem_beq]
    exact ⟨_, hmem, by simp⟩
  rw [htrue] at hcon
  cases hcon

/-- C5: for every pair of token lists, the first component of
`find_text_differences` holds index i exactly when the normalized form of
token i of side 1 (all whitespace removed, then uppercased) equals the
normalized form of no side-2 token, and symmetrically for the second
component; in particular the differencer returns two empty index lists when
any list is compared with itself. -/
theorem find_text_differences_spec :
    (∀ (texts1 texts2 : List String),
      (∀ i, i ∈ (find_text_differences texts1 texts2).1 ↔
        ∃ h : i < texts1.length,
          ∀ t ∈ texts2, normalize_text (texts1.get ⟨i, h⟩) ≠ normalize_text t)
      ∧ (∀ j, j ∈ (find_text_differences texts1 texts2).2 ↔
        ∃ h : j < texts2.length,
          ∀ t ∈ texts1, normalize_text (texts2.get ⟨j, h⟩) ≠ normalize_text t))
    ∧ (∀ (A : List String), find_text_differences A A = ([], [])) := by
  constructor
  · intro texts1 texts2
    exact ⟨fun i => diff_component_spec texts1 texts2 i,
           fun j => diff_component_spec texts2 texts1 j⟩
  · intro A
    show (diff_indices_from 0 (A.map normalize_text) (A.map normalize_text),
          diff_indices_from 0 (A.map normalize_text) (A.map normalize_text)) = ([], [])
    rw [diff_indices_self]

/-- C7 counterexample: the file "SettleCI&PKL.xlsx" satisfies the claim's
hypothesis (uppercased name contains "CI&PKL", spreadsheet extension), but
the settlement rule has higher priority and wins, so the file is not
classified as combined invoice+packing-list. -/
theorem classify_ci_pkl_priority_counterexample :
    containsSub "CI&PKL" (upperStr (FPath.name ⟨"tdir", "SettleCI&PKL", ".xlsx"⟩)) = true
    ∧ upperStr (FPath.ext ⟨"tdir", "SettleCI&PKL", ".xlsx"⟩) = ".XLSX"
    ∧ (classify_input_documents [⟨"tdir", "SettleCI&PKL", ".xlsx"⟩]).cinvoice_plist_file_name = none
    ∧ (classify_input_documents [⟨"tdir", "SettleCI&PKL", ".xlsx"⟩]).settle_file_name =
        some "SettleCI&PKL.xlsx" :=
  ⟨by decide, by decide, by decide, by decide⟩

/-- C7 amended: the classification chain tests the rules in the fixed
priority order settlement, e-invoice, CI&PKL, CI, PKL, TKX, PO/SO, first
match winning; a spreadsheet file whose uppercased name contains "SETTLE" is
always recorded as settlement (the highest-priority rule), and a spreadsheet
file whose uppercased name contains "CI&PKL" but not "SETTLE" is always
recorded under the combined invoice+packing-list role — never as
commercial-invoice or packing-list — regardless of the accumulated
classification state. -/
theorem classify_ci_pkl_combined :
    ∀ (st : ClassifiedSet) (f : FPath),
    (containsSub "CI&PKL" (upperStr f.name) = true →
      containsSub "SETTLE" (upperStr f.name) = false →
      spreadsheet_ext (upperStr f.ext) = true →
      classify_one st f = { st with cinvoice_plist_file_name := some f.name })
    ∧ (containsSub "SETTLE" (upperStr f.name) = true →
      spreadsheet_ext (upperStr f.ext) = true →
      classify_one st f = { st with settle_file_name := some f.name }) := by
  intro st f
  constructor
  · intro h1 h2 h3
    have hext : upperStr f.ext = ".XLSX" ∨ upperStr f.ext = ".XLS" := by
      have h3b := h3
      unfold spreadsheet_ext at h3b
      simpa using h3b
    have hxml : (upperStr f.ext == ".XML") = false := by
      rcases hext with hx | hx <;> rw [hx] <;> decide
    simp [classify_one, h1, h2, h3, hxml]
  · intro h1 h2
    simp [classify_one, h1, h2]

/-- Witness for the amended C7: the specification's own example file
"CI&PKL_2024.xlsx" is recorded under the combined invoice+packing-list role
when classified from the empty state. -/
theorem classify_ci_pkl_combined_witness :
    classify_one {} ⟨"tdir", "CI&PKL_2024", ".xlsx"⟩ =
      { cinvoice_plist_file_name := some "CI&PKL_2024.xlsx" } :=
  (classify_ci_pkl_combined {} ⟨"tdir", "CI&PKL_2024", ".xlsx"⟩).1
    (by decide) (by decide) (by decide)

/-- C8: whenever `export_pdf_to_images` returns, the returned path list has
exactly `num_pages` entries, in page order, and entry i is named
`{stem}_page_{i+1}.jpg` (1-indexed pages) in the directory of the input
PDF. -/
theorem export_pdf_to_images_spec
    (rasterize : FPath → Except String (List String))
    (pdfExists : Bool) (pdf_path : FPath)
    (image_paths : List FPath) (num_pages : Nat)
    (h : export_pdf_to_images rasterize pdfExists pdf_path =
      .ok (image_paths, num_pages)) :
    image_paths.length = num_pages
    ∧ ∀ i (hi : i < image_paths.length),
        image_paths.get ⟨i, hi⟩ =
          ⟨pdf_path.dir, pdf_path.stem ++ "_page_" ++ toString (i + 1), ".jpg"⟩ := by
  unfold export_pdf_to_images at h
  cases hpe : pdfExists with
  | false =>
    rw [hpe] at h
    cases h
  | true =>
    rw [hpe] at h
    simp only [Bool.not_true, Bool.false_eq_true, if_false] at h
    cases hr : rasterize pdf_path with
    | error msg =>
      rw [hr] at h
      cases h
    | ok images =>
      rw [hr] at h
      simp only at h
      injection h with h
      injection h with hpaths hnum
      subst hpaths
      subst hnum
      constructor
      · rw [List.length_map, List.length_range]
      · intro i hi
        simp only [List.get_eq_getElem, List.getElem_map, List.getElem_range]

/-- Witness for C8: a two-page PDF "d/doc.pdf" exports to exactly the paths
"doc_page_1.jpg" and "doc_page_2.jpg" in its own directory. -/
theorem export_pdf_to_images_spec_witness :
    ([(⟨"d", "doc_page_1", ".jpg"⟩ : FPath), ⟨"d", "doc_page_2", ".jpg"⟩] : List FPath).length = 2
    ∧ ([(⟨"d", "doc_page_1", ".jpg"⟩ : FPath), ⟨"d", "doc_page_2", ".jpg"⟩] : List FPath).get ⟨1, by decide⟩ =
        ⟨"d", "doc_page_2", ".jpg"⟩ :=
  ⟨(export_pdf_to_images_spec (fun _ => .ok ["a", "b"]) true ⟨"d", "doc", ".pdf"⟩
      [⟨"d", "doc_page_1", ".jpg"⟩, ⟨"d", "doc_page_2", ".jpg"⟩] 2 (by decide)).1,
   (export_pdf_to_images_spec (fun _ => .ok ["a", "b"]) true ⟨"d", "doc", ".pdf"⟩
      [⟨"d", "doc_page_1", ".jpg"⟩, ⟨"d", "doc_page_2", ".jpg"⟩] 2 (by decide)).2 1 (by decide)⟩

/-- Rectangles drawn by the annotator: one rectangle for every in-range
highlighted index, each out-of-range index silently skipped. -/
theorem drawnRects_eq (bboxes : List BBox) :
    ∀ (indices : List Nat),
    drawnRects bboxes indices =
      (indices.filter (fun i => decide (i < bboxes.length))).map
        (fun i => bboxes.getD i default) := by
  intro indices
  induction indices with
  | nil => rfl
  | cons i rest ih =>
    unfold drawnRects at ih ⊢
    rw [List.filterMap_cons, List.filter_cons]
    by_cases hi : i < bboxes.length
    · have hsome : bboxes[i]? = some bboxes[i] := List.getElem?_eq_getElem hi
      have hgetD : bboxes.getD i default = bboxes[i] := by
        rw [List.getD_eq_getElem?_getD, hsome, Option.getD_some]
      simp [hsome, hi, ih, hgetD]
    · have hnone : bboxes[i]? = none :=
        List.getElem?_eq_none_iff.mpr (Nat.le_of_not_lt hi)
      simp [hnone, hi, ih]

/-- C9: the annotator never fails on an out-of-range highlight index — it
draws exactly one rectangle for each index below the bbox-list length and
skips every index at or beyond it silently — and it always writes and
returns the new path `{stem}_with_bboxes.jpg`, touching no other file and in
particular leaving the source image unmodified. -/
theorem draw_bounding_boxes_spec (fs : FileStore) (image_path : FPath)
    (bboxes : List BBox) (indices : List Nat) :
    (draw_bounding_boxes fs image_path bboxes indices).2 = draw_output_path image_path
    ∧ (∀ q, (draw_bounding_boxes fs image_path bboxes indices).1 q =
        if q = draw_output_path image_path then
          some { pixels := ((fs image_path).getD default).pixels,
                 rects := ((fs image_path).getD default).rects ++ drawnRects bboxes indices }
        else fs q)
    ∧ (draw_bounding_boxes fs image_path bboxes indices).1 image_path = fs image_path
    ∧ drawnRects bboxes indices =
        (indices.filter (fun i => decide (i < bboxes.length))).map
          (fun i => bboxes.getD i default) := by
  have hchar : ∀ q, (draw_bounding_boxes fs image_path bboxes indices).1 q =
      if q = draw_output_path image_path then
        some { pixels := ((fs image_path).getD default).pixels,
               rects := ((fs image_path).getD default).rects ++ drawnRects bboxes indices }
      else fs q := by
    intro q
    rfl
  have hne : image_path ≠ draw_output_path image_path := by
    intro h
    have hstem := congrArg FPath.stem h
    simp only [draw_output_path] at hstem
    have hlen := congrArg String.length hstem
    rw [String.length_append] at hlen
    have h12 : "_with_bboxes".length = 12 := by decide
    omega
  refine ⟨rfl, hchar, ?_, drawnRects_eq bboxes indices⟩
  rw [hchar image_path, if_neg hne]

/-- C10: when both documents rasterize to zero pages the page-count check
passes (0 = 0), the sequential orchestrator returns the empty result
sequence, but the optimized orchestrator raises the All-Pages-Failed
exception even though no page was processed or failed — an empty result is
indistinguishable from total per-page failure in the optimized variant. -/
theorem zero_pages_divergence :
    pipeline_setup envZero = .ok ([], [], 0)
    ∧ compare_document_pair envZero = .ok []
    ∧ compare_document_pair_optimized envZero [] = .error .allPagesFailed :=
  ⟨by decide, by decide, by decide⟩
